import Mathlib

/-!
Verification of the CopycatAI influencer analysis pipeline
(src/ai_influencer/pipeline/copycat.py) against its natural-language
specification.

The Python module is shallowly embedded below.  Conventions used by the
embedding:

* Python floats are modelled as exact rationals (ℚ); the evolution tracker,
  which uses log2 and sqrt, is modelled over ℝ.
* Python regular expressions over the small fixed patterns of the module are
  modelled by explicit character scanners: a word (pattern [\w']+ or \w-runs)
  is a maximal run of word characters; \w is modelled as ASCII alphanumerics,
  the underscore and the Latin-1/Latin-Extended-A letter block (enough for the
  Italian texts the module handles).  str.lower is modelled by String.toLower
  (ASCII case folding; every lexicon entry of the module is unaffected).
* Python dictionaries are modelled as insertion-ordered association lists with
  the usual overwrite/append semantics; Python sets used only for membership
  are modelled as lists.
* datetime values are modelled as rational time coordinates measured in days,
  so that timedelta(days = n) is the rational n.  ISO parsing/formatting of
  timestamps is not modelled: a timestamp stays a rational throughout.
* round(x, 2) is modelled as round (x * 100) / 100 (no claim below touches a
  two-decimal midpoint, where Python's bankers rounding could differ).
-/

/-! ## Character classes and regex-like scanners -/

/-- Model of Python's \w character class (see the conventions above). -/
def isWordChar (c : Char) : Bool :=
  c.isAlphanum || c = '_' || (0xC0 ≤ c.toNat && c.toNat ≤ 0x17F)

/-- Character class of the module's _WORD_PATTERN regex [\w']+. -/
def isWordTok (c : Char) : Bool :=
  isWordChar c || c = '\''

/-- Maximal runs of characters satisfying p (the accumulator holds the
current run reversed). -/
def runsAux (p : Char → Bool) : List Char → List Char → List (List Char)
  | [], acc => if acc.isEmpty then [] else [acc.reverse]
  | c :: cs, acc =>
    if p c then runsAux p cs (c :: acc)
    else if acc.isEmpty then runsAux p cs []
    else acc.reverse :: runsAux p cs []

/-- _WORD_PATTERN.findall: all maximal [\w']+ runs of a string. -/
def findWords (s : String) : List String :=
  (runsAux isWordTok s.toList []).map fun cs => ⟨cs⟩

/-- Python str.strip (whitespace at both ends). -/
def strStrip (s : String) : String :=
  ⟨((s.toList.dropWhile Char.isWhitespace).reverse.dropWhile Char.isWhitespace).reverse⟩

/-- Sentence-terminal punctuation of the _split_sentences regex. -/
def isTermChar (c : Char) : Bool :=
  c = '.' || c = '!' || c = '?'

/-- Splitter for re.split((?<=[.!?])\s+, text): a whitespace character starts
a new part when the previous kept character is sentence-terminal; parts are
stripped afterwards, so the remaining whitespace of the separator run is
immaterial. -/
def splitSentAux : List Char → List Char → List (List Char)
  | [], cur => [cur.reverse]
  | c :: cs, cur =>
    if c.isWhitespace && (match cur with | p :: _ => isTermChar p | [] => false) then
      cur.reverse :: splitSentAux cs []
    else splitSentAux cs (c :: cur)

/-- _split_sentences: split at sentence-terminal punctuation followed by
whitespace, strip each part, drop empty parts. -/
def splitSentences (text : String) : List String :=
  ((splitSentAux (strStrip text).toList []).map fun cs => strStrip ⟨cs⟩).filter
    fun s => s ≠ ""

/-- Character range test of the module's _EMOJI_PATTERN. -/
def isEmojiChar (c : Char) : Bool :=
  (0x1F300 ≤ c.toNat && c.toNat ≤ 0x1FAD6) ||
  (0x1F900 ≤ c.toNat && c.toNat ≤ 0x1F9FF) ||
  (0x2600 ≤ c.toNat && c.toNat ≤ 0x27BF)

/-- _count_emojis: number of emoji-range characters of the text. -/
def countEmojis (text : String) : ℕ :=
  (text.toList.filter isEmojiChar).length

/-- re.search((.)\1\x7b2,\x7d, text): some character repeated at least three
times consecutively. -/
def hasTripleRepeat : List Char → Bool
  | a :: b :: c :: rest => (a = b && b = c) || hasTripleRepeat (b :: c :: rest)
  | _ => false

/-! ## Language lexicons and detection -/

def italianWords : List String :=
  ["e", "che", "non", "per", "con", "sono", "fare", "allenamento", "ciao",
   "ragazzi", "consiglio", "evito", "sempre", "giorno", "grande", "bene"]

def englishWords : List String :=
  ["and", "the", "for", "with", "are", "workout", "hello", "guys", "tip",
   "avoid", "always", "day", "great"]

def slangTokens : List String :=
  ["lol", "lmao", "haha", "ahah", "omg", "raga", "tipo", "yolo"]

/-- Result record of _detect_language. -/
structure LangDetection where
  lang : String
  confidence : ℚ
  secondaryShare : ℚ
deriving DecidableEq

/-- Python str.lower modelled character-wise (ASCII case folding). -/
def strLower (s : String) : String :=
  ⟨s.toList.map Char.toLower⟩

/-- The lowercased [\w']+ tokens a text is detected from. -/
def langTokens (text : String) : List String :=
  (findWords text).map strLower

/-- Hits of the Italian stop-word set among the tokens. -/
def italianHits (text : String) : ℕ :=
  ((langTokens text).filter fun t => italianWords.contains t).length

/-- Hits of the English stop-word set among the tokens. -/
def englishHits (text : String) : ℕ :=
  ((langTokens text).filter fun t => englishWords.contains t).length

/-- _detect_language: stop-word coverage heuristic.  With zero hits on both
sets it returns the fixed result ("it", 0.5, 0.0); otherwise the side with
more hits wins (Italian on ties), confidence capped at 1. -/
def detectLanguage (text : String) : LangDetection :=
  let total : ℕ := max (langTokens text).length 1
  let ih := italianHits text
  let eh := englishHits text
  if ih = 0 ∧ eh = 0 then ⟨"it", 1/2, 0⟩
  else if eh ≤ ih then ⟨"it", min ((ih : ℚ) / total) 1, (eh : ℚ) / total⟩
  else ⟨"en", min ((eh : ℚ) / total) 1, (ih : ℚ) / total⟩

/-! ## Conservative translation (normalised text) -/

def translationGlossary : List (String × String) :=
  [("workout", "allenamento"), ("training", "allenamento"), ("tip", "consiglio"),
   ("avoid", "evita"), ("healthy", "sano"), ("mindset", "mentalità"),
   ("focus", "focus")]

/-- Drop an expected literal sequence in front of a character list. -/
def dropPref : List Char → List Char → Option (List Char)
  | [], l => some l
  | _ :: _, [] => none
  | p :: ps, c :: cs => if p = c then dropPref ps cs else none

theorem dropPref_length :
    ∀ p l r, dropPref p l = some r → l.length = p.length + r.length := by
  intro p
  induction p with
  | nil => intro l r h; simp [dropPref] at h; simp [h]
  | cons a as ih =>
    intro l r h
    cases l with
    | nil => simp [dropPref] at h
    | cons c cs =>
      by_cases hac : a = c
      · simp [dropPref, hac] at h
        have := ih cs r h
        simp [List.length_cons, this]
        omega
      · simp [dropPref, hac] at h

theorem length_dropWhile_le (p : Char → Bool) :
    ∀ l : List Char, (l.dropWhile p).length ≤ l.length := by
  intro l
  induction l with
  | nil => simp
  | cons c cs ih =>
    by_cases h : p c
    · simp [List.dropWhile, h]; omega
    · simp [List.dropWhile, h]

/-- Python str.replace: replace every non-overlapping occurrence of a
(non-empty) needle, scanning left to right. -/
def replaceAll (needle repl : List Char) (l : List Char) : List Char :=
  match l with
  | [] => []
  | c :: cs =>
    if h : needle ≠ [] ∧ needle.isPrefixOf (c :: cs) then
      repl ++ replaceAll needle repl ((c :: cs).drop needle.length)
    else
      c :: replaceAll needle repl cs
termination_by l.length
decreasing_by
  · have hlen : 1 ≤ needle.length := by
      cases needle with
      | nil => exact absurd rfl h.1
      | cons _ _ => simp
    simp [List.length_drop]
    omega
  · simp

/-- Scanner for re.findall: at every position try the matcher; on a match
emit it and continue after it, otherwise advance one character.  Fuelled by
the input length, which suffices because every matcher used below consumes at
least one character on success (matchTag_shrink, matchUrlAt_shrink). -/
def scanFuel (m : List Char → Option (List Char × List Char)) :
    ℕ → List Char → List (List Char)
  | 0, _ => []
  | _ + 1, [] => []
  | fuel + 1, c :: cs =>
    match m (c :: cs) with
    | some (u, r) => u :: scanFuel m fuel r
    | none => scanFuel m fuel cs

def scanMatches (m : List Char → Option (List Char × List Char))
    (l : List Char) : List (List Char) :=
  scanFuel m l.length l

/-- Matcher for the patterns #[\w_]+ and @[\w_]+ (mark then word chars). -/
def matchTag (mark : Char) (l : List Char) : Option (List Char × List Char) :=
  match l with
  | [] => none
  | c :: cs =>
    if c = mark then
      let body := cs.takeWhile isWordChar
      if body.isEmpty then none else some (mark :: body, cs.dropWhile isWordChar)
    else none

theorem matchTag_shrink (mark : Char) :
    ∀ l u r, matchTag mark l = some (u, r) → r.length < l.length := by
  intro l u r h
  cases l with
  | nil => simp [matchTag] at h
  | cons c cs =>
    by_cases hc : c = mark
    · by_cases hb : (cs.takeWhile isWordChar).isEmpty
      · simp [matchTag, hc, hb] at h
      · simp [matchTag, hc, hb] at h
        have := length_dropWhile_le isWordChar cs
        simp [← h.2, List.length_cons]
        omega
    · simp [matchTag, hc] at h

/-- ASCII-letter-or-apostrophe class of the translation regex [A-Za-z']+. -/
def isTransChar (c : Char) : Bool :=
  ('a' ≤ c && c ≤ 'z') || ('A' ≤ c && c ≤ 'Z') || c = '\''

/-- re.sub over maximal runs of a class: transform each run, keep the rest. -/
def subRunsAux (p : Char → Bool) (f : List Char → List Char) :
    List Char → List Char → List Char
  | [], acc => if acc.isEmpty then [] else f acc.reverse
  | c :: cs, acc =>
    if p c then subRunsAux p f cs (c :: acc)
    else if acc.isEmpty then c :: subRunsAux p f cs []
    else f acc.reverse ++ (c :: subRunsAux p f cs [])

/-- Python str.capitalize: first character uppercased, the rest lowered. -/
def capitalizeStr (s : String) : String :=
  match s.toList with
  | [] => s
  | c :: cs => ⟨c.toUpper :: cs.map Char.toLower⟩

/-- The _replace callback of _conservative_translate: glossary words are
substituted, first-letter capitalisation preserved. -/
def translateRun (run : List Char) : List Char :=
  let w : String := ⟨run⟩
  match (translationGlossary.find? fun kv => kv.1 == strLower w).map Prod.snd with
  | some t =>
    (if (match run with | c :: _ => c.isUpper | [] => false) then capitalizeStr t
     else t).toList
  | none => run

/-- Placeholder §i§ used while protecting hashtags and mentions. -/
def placeholderFor (n : ℕ) : List Char :=
  '§' :: (toString n).toList ++ ['§']

/-- One protection pass: find all matches of a tag pattern in the current
text, then replace each by a fresh placeholder, recording the mapping. -/
def protectPass (mark : Char) (st : List Char × List (List Char × List Char)) :
    List Char × List (List Char × List Char) :=
  let found := scanMatches (matchTag mark) st.1
  found.foldl
    (fun st tag =>
      let ph := placeholderFor st.2.length
      (replaceAll tag ph st.1, st.2 ++ [(ph, tag)]))
    st

/-- _conservative_translate: protect hashtags and mentions, substitute
glossary words, restore the protected spans.  Only target "it" translates. -/
def conservativeTranslate (text : String) (target : String) : String :=
  if target ≠ "it" then text
  else
    let st0 := protectPass '#' (text.toList, [])
    let st1 := protectPass '@' st0
    let translated := subRunsAux isTransChar translateRun st1.1 []
    ⟨st1.2.foldl (fun t kv => replaceAll kv.1 kv.2 t) translated⟩

/-! ## Documents and lang_fix -/

/-- Values that can appear in a document's metadata mapping, together with
their Python truthiness. -/
inductive MetaVal where
  | bool (b : Bool)
  | str (s : String)
  | other (truthy : Bool)
deriving DecidableEq

def MetaVal.isTruthy : MetaVal → Bool
  | .bool b => b
  | .str s => s ≠ ""
  | .other t => t

/-- The Document dataclass (timestamps as rational day coordinates). -/
structure Doc where
  id : String
  url : String
  ts : ℚ
  platform : String
  text : String
  kind : String
  meta : List (String × MetaVal)
  lang : Option String
  lang_conf : Option ℚ
  mixed_lang : Bool
  slang : Bool
  text_norm : Option String
  sponsored_label : Option String
  sponsored_score : Option ℚ
  cluster_id : Option ℕ
deriving DecidableEq

/-- A fresh document as built at ingestion (all enrichment fields unset). -/
def mkDoc (i : String) (t : ℚ) (pf : String) (txt : String) : Doc :=
  { id := i, url := "https://example.com", ts := t, platform := pf, text := txt,
    kind := "unknown", meta := [], lang := none, lang_conf := none,
    mixed_lang := false, slang := false, text_norm := none,
    sponsored_label := none, sponsored_score := none, cluster_id := none }

/-- _detect_slang: curated slang token, 3+ repeated character run, or an
emoji-range character. -/
def detectSlang (tokens : List String) (text : String) : Bool :=
  tokens.any (fun t => slangTokens.contains t) ||
  hasTripleRepeat text.toList ||
  text.toList.any isEmojiChar

/-- lang_fix: language detection plus mixed-language normalisation, mutating
the document's enrichment fields. -/
def langFix (doc : Doc) (targetLang : String) : Doc :=
  let detection := detectLanguage doc.text
  let tokens := langTokens doc.text
  let slangB := detectSlang tokens doc.text
  let mixed : Bool :=
    decide (detection.confidence < 9/10) || decide (15/100 < detection.secondaryShare)
  let normalized := if mixed then conservativeTranslate doc.text targetLang else doc.text
  { doc with lang := some detection.lang, lang_conf := some detection.confidence,
             mixed_lang := mixed, slang := slangB, text_norm := some normalized }

/-! ## Claims C3 and C10: language detection -/

/-- C3: counterexample.  The claim says that with zero stop-word hits the
detected language is the primary target language; for target language "en"
the code still hardcodes "it", so the claim fails. -/
theorem c3_counterexample :
    italianHits (mkDoc "z" 0 "x" "zzkk wpq").text = 0 ∧
    englishHits (mkDoc "z" 0 "x" "zzkk wpq").text = 0 ∧
    (langFix (mkDoc "z" 0 "x" "zzkk wpq") "en").lang = some "it" := by
  refine ⟨by decide, by decide, ?_⟩
  decide

/-- C3 (amended): for every document and target language, when the text has
zero hits against both stop-word sets, lang_fix sets the detected language to
the fixed default "it" (not the target language), with confidence 0.5,
secondary share 0, and mixed_lang true. -/
theorem c3_amended (doc : Doc) (target : String)
    (hit : italianHits doc.text = 0) (heng : englishHits doc.text = 0) :
    (langFix doc target).lang = some "it" ∧
    (langFix doc target).lang_conf = some (1/2) ∧
    (langFix doc target).mixed_lang = true ∧
    (detectLanguage doc.text).secondaryShare = 0 := by
  have hdet : detectLanguage doc.text = ⟨"it", 1/2, 0⟩ := by
    simp [detectLanguage, hit, heng]
  refine ⟨?_, ?_, ?_, ?_⟩ <;> simp [langFix, hdet] <;> norm_num

/-- C3 witness: the amended statement evaluated on a concrete zero-hit text
with target language "en". -/
theorem c3_amended_witness :
    (langFix (mkDoc "z" 0 "x" "zzkk wpq") "en").lang = some "it" ∧
    (langFix (mkDoc "z" 0 "x" "zzkk wpq") "en").mixed_lang = true := by
  have h := c3_amended (mkDoc "z" 0 "x" "zzkk wpq") "en" (by decide) (by decide)
  exact ⟨h.1, h.2.2.1⟩

/-- C10: when the Italian and English hit counts are equal and non-zero, the
tie goes to Italian with confidence hits divided by total token count. -/
theorem c10_tie_italian (text : String)
    (hEq : italianHits text = englishHits text) (hNe : italianHits text ≠ 0) :
    (detectLanguage text).lang = "it" ∧
    (detectLanguage text).confidence =
      (italianHits text : ℚ) / ((findWords text).length : ℚ) := by
  have hlen : (langTokens text).length = (findWords text).length := by
    simp [langTokens]
  have hle : italianHits text ≤ (findWords text).length :=
    hlen ▸ List.length_filter_le _ _
  have hpos : 0 < (findWords text).length := by
    rcases Nat.eq_zero_or_pos (findWords text).length with h0 | h
    · exact absurd (Nat.le_zero.mp (h0 ▸ hle)) hNe
    · exact h
  have htot : max (langTokens text).length 1 = (findWords text).length := by
    rw [hlen]; omega
  have hcond : ¬ (italianHits text = 0 ∧ englishHits text = 0) := fun h => hNe h.1
  have hif2 : englishHits text ≤ italianHits text := le_of_eq hEq.symm
  have hmin : min ((italianHits text : ℚ) / ((findWords text).length : ℚ)) 1
      = (italianHits text : ℚ) / ((findWords text).length : ℚ) := by
    apply min_eq_left
    rw [div_le_one (by exact_mod_cast hpos)]
    exact_mod_cast hle
  constructor
  · simp [detectLanguage, hcond, hif2]
  · simp [detectLanguage, hcond, hif2, htot, hmin]

/-- C10 witness: the text "e and" has one Italian and one English hit, so the
tie resolves to Italian with confidence 1/2. -/
theorem c10_tie_italian_witness :
    (detectLanguage "e and").lang = "it" ∧
    (detectLanguage "e and").confidence =
      (italianHits "e and" : ℚ) / ((findWords "e and").length : ℚ) :=
  c10_tie_italian "e and" (by decide) (by decide)

/-! ## Sponsored detector -/

def adHashtags : List String :=
  ["#ad", "#adv", "#sponsored", "#sponsorizzato", "#collaborazione", "#partner"]

def paidPartnershipKeywords : List String :=
  ["paid partnership", "partnership a pagamento", "in collaborazione con",
   "collaborazione con", "in partnership con"]

def discountKeywords : List String :=
  ["codice", "code", "sconto", "discount", "promo"]

def affiliateDomains : List String :=
  ["amzn.to", "bit.ly", "go.magik.ly", "shopstyle.it", "rstyle.me"]

/-- Contiguous-sublist test (Python's sub in s on strings). -/
def isSubList (needle : List Char) : List Char → Bool
  | [] => needle.isEmpty
  | c :: rest => needle.isPrefixOf (c :: rest) || isSubList needle rest

/-- Python sub in s. -/
def strContains (hay sub : String) : Bool :=
  isSubList sub.toList hay.toList

/-- _re_has_ad_hashtags: an ad hashtag occurs in the lowercased text. -/
def hasAdHashtags (text : String) : Bool :=
  adHashtags.any fun tag => strContains (strLower text) tag

/-- _has_paid_partnership_badge: Python-truthiness or-chain over the two
metadata keys, then the bool/str shape dispatch. -/
def hasPaidPartnershipBadge (meta : List (String × MetaVal)) : Bool :=
  let get := fun k => (meta.find? fun kv => kv.1 == k).map Prod.snd
  let partnership :=
    match get "paid_partnership" with
    | some v => if v.isTruthy then some v else get "partnership"
    | none => get "partnership"
  match partnership with
  | some (.bool b) => b
  | some (.str s) => ["true", "1", "yes"].contains (strLower s)
  | _ => false

/-- The regex search codice\s+\w+ anchored at the head of the list. -/
def codiceAt (l : List Char) : Bool :=
  match dropPref "codice".toList l with
  | some r =>
    let r2 := r.dropWhile Char.isWhitespace
    decide (r2 ≠ r) && (match r2 with | c :: _ => isWordChar c | [] => false)
  | none => false

/-- re.search(codice\s+\w+, lower): try the pattern at every position. -/
def codiceSearch : List Char → Bool
  | [] => false
  | c :: rest => codiceAt (c :: rest) || codiceSearch rest

/-- _has_discount_code: discount keyword substring, or the codice regex. -/
def hasDiscountCode (text : String) : Bool :=
  let lower := strLower text
  discountKeywords.any (fun k => strContains lower k) || codiceSearch lower.toList

/-- Character class [\w./%-] of _URL_PATTERN. -/
def urlChar (c : Char) : Bool :=
  isWordChar c || c = '.' || c = '/' || c = '%' || c = '-'

/-- Matcher for https?://[\w./%-]+ anchored at the head of the list. -/
def matchUrlAt (l : List Char) : Option (List Char × List Char) :=
  match dropPref "https://".toList l with
  | some r =>
    let body := r.takeWhile urlChar
    if body.isEmpty then none
    else some ("https://".toList ++ body, r.dropWhile urlChar)
  | none =>
    match dropPref "http://".toList l with
    | some r =>
      let body := r.takeWhile urlChar
      if body.isEmpty then none
      else some ("http://".toList ++ body, r.dropWhile urlChar)
    | none => none

theorem matchUrlAt_shrink :
    ∀ l u r, matchUrlAt l = some (u, r) → r.length < l.length := by
  intro l u r h
  unfold matchUrlAt at h
  cases hs : dropPref "https://".toList l with
  | some rs =>
    rw [hs] at h
    by_cases hb : (rs.takeWhile urlChar).isEmpty
    · simp [hb] at h
    · simp [hb] at h
      have h1 := dropPref_length _ _ _ hs
      have h2 := length_dropWhile_le urlChar rs
      rw [← h.2]
      simp at h1
      omega
  | none =>
    rw [hs] at h
    cases hp : dropPref "http://".toList l with
    | some rp =>
      rw [hp] at h
      by_cases hb : (rp.takeWhile urlChar).isEmpty
      · simp [hb] at h
      · simp [hb] at h
        have h1 := dropPref_length _ _ _ hp
        have h2 := length_dropWhile_le urlChar rp
        rw [← h.2]
        simp at h1
        omega
    | none => rw [hp] at h; exact absurd h (by simp)

/-- _URL_PATTERN.findall over the lowercased text. -/
def findUrls (text : String) : List (List Char) :=
  scanMatches matchUrlAt text.toList

/-- _has_affiliate_url: some found URL contains an affiliate domain. -/
def hasAffiliateUrl (text : String) : Bool :=
  (findUrls (strLower text)).any fun url =>
    affiliateDomains.any fun d => isSubList d.toList url

/-- Python round(x, 2) over exact rationals. -/
def round2 (q : ℚ) : ℚ :=
  (round (q * 100) : ℤ) / 100

/-- The label conditional of sponsored_detector. -/
def sponsoredLabelOf (score : ℚ) : String :=
  if 75/100 ≤ score then "sponsored"
  else if 5/10 ≤ score then "uncertain"
  else "organic"

/-- The independently written kind conditional of sponsored_detector. -/
def sponsoredKindOf (score : ℚ) : String :=
  if 75/100 ≤ score then "sponsored"
  else if 5/10 ≤ score ∧ score < 75/100 then "uncertain"
  else "organic"

/-- The additive capped score of sponsored_detector. -/
def sponsoredScoreOf (doc : Doc) : ℚ :=
  let text := strLower doc.text
  let s1 : ℚ := if hasAdHashtags text then 0 + 6/10 else 0
  let s2 := if hasPaidPartnershipBadge doc.meta then s1 + 3/10 else s1
  let s3 := if hasDiscountCode text || hasAffiliateUrl text then s2 + 2/10 else s2
  let s4 :=
    if paidPartnershipKeywords.any (fun k => strContains text k) then s3 + 3/10 else s3
  min s4 1

/-- sponsored_detector: score the document, set label, rounded score, kind. -/
def sponsoredDetector (doc : Doc) : Doc :=
  let score := sponsoredScoreOf doc
  { doc with sponsored_label := some (sponsoredLabelOf score),
             sponsored_score := some (round2 score),
             kind := sponsoredKindOf score }

/-! ## Claims C5 and C6: sponsored detection -/

theorem sponsoredLabelOf_eq_kindOf (s : ℚ) :
    sponsoredLabelOf s = sponsoredKindOf s := by
  unfold sponsoredLabelOf sponsoredKindOf
  by_cases h1 : (75/100 : ℚ) ≤ s
  · simp [h1]
  · by_cases h2 : (5/10 : ℚ) ≤ s
    · simp [h1, h2, lt_of_not_le h1]
    · simp [h1, h2]

/-- C5: after sponsored_detector runs, the kind field always equals the
sponsored label — the two independently written conditionals over the same
score agree at every boundary. -/
theorem c5_kind_equals_label (doc : Doc) :
    (sponsoredDetector doc).sponsored_label =
      some ((sponsoredDetector doc).kind) := by
  simp [sponsoredDetector, sponsoredLabelOf_eq_kindOf]

/-- C6: a document whose only sponsorship signal is an ad hashtag scores
exactly 0.6 with label "uncertain"; adding a true paid-partnership metadata
flag lifts the score to at least 0.75 with label "sponsored". -/
theorem c6_ad_hashtag_scores (doc : Doc)
    (had : hasAdHashtags (strLower doc.text) = true)
    (hbadge : hasPaidPartnershipBadge doc.meta = false)
    (hdisc : hasDiscountCode (strLower doc.text) = false)
    (haff : hasAffiliateUrl (strLower doc.text) = false)
    (hphrase :
      paidPartnershipKeywords.any (fun k => strContains (strLower doc.text) k) = false) :
    (sponsoredDetector doc).sponsored_score = some (6/10) ∧
    (sponsoredDetector doc).sponsored_label = some "uncertain" ∧
    (∃ s, (sponsoredDetector
        { doc with meta := ("paid_partnership", MetaVal.bool true) :: doc.meta
        }).sponsored_score = some s ∧ 75/100 ≤ s) ∧
    (sponsoredDetector
        { doc with meta := ("paid_partnership", MetaVal.bool true) :: doc.meta
        }).sponsored_label = some "sponsored" := by
  have hbadge2 : hasPaidPartnershipBadge
      (("paid_partnership", MetaVal.bool true) :: doc.meta) = true := by
    simp [hasPaidPartnershipBadge, MetaVal.isTruthy]
  have hscore1 : sponsoredScoreOf doc = 6/10 := by
    simp [sponsoredScoreOf, had, hbadge, hdisc, haff, hphrase]
    norm_num
  have hscore2 : sponsoredScoreOf
      { doc with meta := ("paid_partnership", MetaVal.bool true) :: doc.meta } = 9/10 := by
    simp [sponsoredScoreOf, had, hbadge2, hdisc, haff, hphrase]
    norm_num
  refine ⟨?_, ?_, ⟨9/10, ?_, by norm_num⟩, ?_⟩
  · simp [sponsoredDetector, hscore1, round2]
    norm_num [round_eq]
  · simp [sponsoredDetector, hscore1, sponsoredLabelOf]
    norm_num
  · simp [sponsoredDetector, hscore2, round2]
    norm_num [round_eq]
  · simp [sponsoredDetector, hscore2, sponsoredLabelOf]
    norm_num

/-- C6 witness: the statement evaluated on a concrete document whose text is
exactly the hashtag #ad, with and without the paid-partnership flag. -/
theorem c6_ad_hashtag_scores_witness :
    (sponsoredDetector (mkDoc "s" 0 "x" "#ad")).sponsored_score = some (6/10) ∧
    (sponsoredDetector (mkDoc "s" 0 "x" "#ad")).sponsored_label = some "uncertain" ∧
    (sponsoredDetector
        { mkDoc "s" 0 "x" "#ad" with
          meta := ("paid_partnership", MetaVal.bool true) :: (mkDoc "s" 0 "x" "#ad").meta
        }).sponsored_label = some "sponsored" := by
  have h := c6_ad_hashtag_scores (mkDoc "s" 0 "x" "#ad")
    (by decide) (by decide) (by decide) (by decide) (by decide)
  exact ⟨h.1, h.2.1, h.2.2.2⟩

/-! ## Topic clustering -/

def stopwords : List String :=
  ["e", "che", "con", "per", "the", "and", "una", "del", "della", "di", "un",
   "lo", "la", "gli", "le", "a", "da", "su"]

/-- _tokenize: word tokens, lowercased, stop-words and short tokens removed. -/
def tokenize (text : String) : List String :=
  ((findWords text).filter fun t =>
    !(stopwords.contains (strLower t)) && decide (2 < t.length)).map strLower

/-- The TopicCluster dataclass. -/
structure TopicCluster where
  id : ℕ
  size : ℕ
  top_terms : List String
  exemplar_ids : List String
  coverage : ℚ
deriving DecidableEq

/-- Stable insertion step: x goes before the first y it may precede. -/
def insertLe (le : α → α → Bool) (x : α) : List α → List α
  | [] => [x]
  | y :: ys => if le x y then x :: y :: ys else y :: insertLe le x ys

/-- Stable insertion sort, the model of Python's stable sorted/list.sort:
an earlier element precedes a later one whenever le allows it. -/
def sortByLe (le : α → α → Bool) : List α → List α
  | [] => []
  | x :: xs => insertLe le x (sortByLe le xs)

theorem insertLe_perm (le : α → α → Bool) (x : α) :
    ∀ l : List α, (insertLe le x l).Perm (x :: l) := by
  intro l
  induction l with
  | nil => simp [insertLe]
  | cons y ys ih =>
    by_cases h : le x y
    · simp [insertLe, h]
    · simp only [insertLe, h, if_neg, Bool.false_eq_true, not_false_iff]
      exact (ih.cons y).trans (List.Perm.swap x y ys)

theorem sortByLe_perm (le : α → α → Bool) :
    ∀ l : List α, (sortByLe le l).Perm l := by
  intro l
  induction l with
  | nil => simp [sortByLe]
  | cons x xs ih =>
    exact (insertLe_perm le x (sortByLe le xs)).trans (ih.cons x)

theorem insertLe_pairwise (le : α → α → Bool)
    (htot : ∀ a b, le a b = true ∨ le b a = true)
    (htrans : ∀ a b c, le a b = true → le b c = true → le a c = true)
    (x : α) :
    ∀ l : List α, l.Pairwise (fun a b => le a b = true) →
      (insertLe le x l).Pairwise (fun a b => le a b = true) := by
  intro l
  induction l with
  | nil => intro _; simp [insertLe]
  | cons y ys ih =>
    intro hp
    rcases List.pairwise_cons.mp hp with ⟨hy, hys⟩
    by_cases h : le x y
    · simp only [insertLe, h, if_pos]
      refine List.pairwise_cons.mpr ⟨?_, hp⟩
      intro z hz
      rcases List.mem_cons.mp hz with rfl | hz2
      · exact h
      · exact htrans x y z h (hy z hz2)
    · simp only [insertLe, h, if_neg, Bool.false_eq_true, not_false_iff]
      refine List.pairwise_cons.mpr ⟨?_, ih hys⟩
      intro z hz
      have hmem := (insertLe_perm le x ys).mem_iff.mp hz
      rcases List.mem_cons.mp hmem with rfl | hz2
      · rcases htot z y with hzy | hyz
        · exact absurd hzy h
        · exact hyz
      · exact hy z hz2

theorem sortByLe_pairwise (le : α → α → Bool)
    (htot : ∀ a b, le a b = true ∨ le b a = true)
    (htrans : ∀ a b c, le a b = true → le b c = true → le a c = true) :
    ∀ l : List α, (sortByLe le l).Pairwise (fun a b => le a b = true) := by
  intro l
  induction l with
  | nil => simp [sortByLe]
  | cons x xs ih => exact insertLe_pairwise le htot htrans x _ ih

/-- Counter increment: bump an existing key in place or append a new one. -/
def counterIncr (c : List (String × ℕ)) (t : String) : List (String × ℕ) :=
  match c with
  | [] => [(t, 1)]
  | (k, n) :: rest => if k == t then (k, n + 1) :: rest else (k, n) :: counterIncr rest t

/-- Counter.update with an iterable of tokens. -/
def counterUpdate (c : List (String × ℕ)) (ts : List String) : List (String × ℕ) :=
  ts.foldl counterIncr c

/-- Counter.most_common(n): keys sorted by count descending (stable), first n. -/
def mostCommon (n : ℕ) (c : List (String × ℕ)) : List String :=
  ((sortByLe (fun a b => decide (b.2 ≤ a.2)) c).map Prod.fst).take n

/-- doc.text_norm or doc.text (Python falsiness: an empty string falls back). -/
def sourceTextOf (d : Doc) : String :=
  match d.text_norm with
  | some t => if t = "" then d.text else t
  | none => d.text

/-- Dict assignment tokenised_docs[doc.id] = tokens (overwrite keeps position,
a new key appends). -/
def dictInsertTok (k : String) (v : List String) :
    List (String × List String) → List (String × List String)
  | [] => [(k, v)]
  | (k2, v2) :: rest =>
    if k2 == k then (k2, v) :: rest else (k2, v2) :: dictInsertTok k v rest

/-- The tokenised_docs dict of _cluster_documents. -/
def tokenisedDocs (docs : List Doc) : List (String × List String) :=
  docs.foldl (fun m d => dictInsertTok d.id (tokenize (sourceTextOf d)) m) []

/-- tokenised_docs.get(id, []). -/
def lookupToks (m : List (String × List String)) (k : String) : List String :=
  match m.find? (fun kv => kv.1 == k) with
  | some kv => kv.2
  | none => []

/-- The dominant-token cluster key of a document ("vario" when no tokens). -/
def docKey (toks : List (String × List String)) (d : Doc) : String :=
  match lookupToks toks d.id with
  | [] => "vario"
  | t :: _ => t

/-- defaultdict(list) append: extend an existing key in place, new keys at
the end (dict insertion order). -/
def mapAppend (k : String) (d : Doc) :
    List (String × List Doc) → List (String × List Doc)
  | [] => [(k, [d])]
  | (k2, ds) :: rest =>
    if k2 == k then (k2, ds ++ [d]) :: rest else (k2, ds) :: mapAppend k d rest

/-- The cluster_map of _cluster_documents, in key-first-encounter order. -/
def clusterMapOf (docs : List Doc) : List (String × List Doc) :=
  docs.foldl (fun m d => mapAppend (docKey (tokenisedDocs docs) d) d m) []

/-- The main loop of _cluster_documents: walk the provisional clusters in
insertion order, discard the unsupported ones (size < 5 and coverage < 1%),
assign ids 1, 2, ... to the survivors as they are kept.  coverage is
size / total_docs; it is written with mkRat, which equals the cast division
(Rat.mkRat_eq_div) but also reduces inside the kernel. -/
def survivorsAux (total : ℕ) (toks : List (String × List String)) :
    List (String × List Doc) → ℕ → List (String × TopicCluster)
  | [], _ => []
  | (key, members) :: rest, nid =>
    let counter := members.foldl (fun c mem => counterUpdate c (lookupToks toks mem.id)) []
    let size := members.length
    let coverage : ℚ := mkRat size total
    if size < 5 ∧ coverage < mkRat 1 100 then survivorsAux total toks rest nid
    else
      let exemplars :=
        (sortByLe (fun a b => decide (b.text.length ≤ a.text.length)) members).take 3
      (key,
        { id := nid, size := size, top_terms := mostCommon 6 counter,
          exemplar_ids := exemplars.map fun d => d.id, coverage := coverage })
        :: survivorsAux total toks rest (nid + 1)

/-- The surviving clusters of a run, paired with their cluster_map key. -/
def survivorsOf (docs : List Doc) : List (String × TopicCluster) :=
  survivorsAux (max docs.length 1) (tokenisedDocs docs) (clusterMapOf docs) 1

def clusterSortLe (a b : TopicCluster) : Bool :=
  decide (b.size ≤ a.size)

/-- The side effect of _cluster_documents on one document: members of a
surviving cluster receive its id, all other documents are untouched. -/
def clusterUpdateDoc (docs : List Doc) (d : Doc) : Doc :=
  match (survivorsOf docs).find? (fun kv => kv.1 == docKey (tokenisedDocs docs) d) with
  | some kv => { d with cluster_id := some kv.2.id }
  | none => d

/-- _cluster_documents: the returned clusters (sorted by size descending)
and the documents with their written-back cluster ids. -/
def clusterDocuments (docs : List Doc) : List TopicCluster × List Doc :=
  (sortByLe clusterSortLe ((survivorsOf docs).map Prod.snd),
   docs.map (clusterUpdateDoc docs))

/-! ## Claims C2 and C8: clustering -/

/-- Concrete three-document batch: key "alpha" is encountered first (1
member), key "beta" second (2 members); every cluster survives. -/
def demoDocsC2 : List Doc :=
  [mkDoc "d1" 0 "x" "alpha", mkDoc "d2" 0 "x" "beta gym", mkDoc "d3" 0 "x" "beta gym"]

/-- C2: counterexample.  The claim says the largest cluster has id 1 after
the size-descending sort; in fact ids are assigned before sorting, in
first-encounter order, so here the largest cluster (size 2) carries id 2 and
the returned size-sorted list is [(id 2, size 2), (id 1, size 1)]. -/
theorem c2_counterexample :
    ((clusterDocuments demoDocsC2).1.map fun c => (c.id, c.size)) = [(2, 2), (1, 1)] := by
  decide

theorem survivorsAux_ids (total : ℕ) (toks : List (String × List String)) :
    ∀ entries nid, ∃ k,
      ((survivorsAux total toks entries nid).map fun kc => kc.2.id) =
        List.range' nid k := by
  intro entries
  induction entries with
  | nil => intro nid; exact ⟨0, rfl⟩
  | cons e rest ih =>
    intro nid
    obtain ⟨key, members⟩ := e
    by_cases h : members.length < 5 ∧ mkRat members.length total < mkRat 1 100
    · obtain ⟨k, hk⟩ := ih nid
      exact ⟨k, by simp only [survivorsAux, h, if_pos]; exact hk⟩
    · obtain ⟨k, hk⟩ := ih (nid + 1)
      refine ⟨k + 1, ?_⟩
      simp only [survivorsAux, h, if_neg, not_false_iff, List.map_cons]
      rw [hk]
      rfl

theorem survivorsOf_ids (docs : List Doc) :
    ∃ k, ((survivorsOf docs).map fun kc => kc.2.id) = List.range' 1 k :=
  survivorsAux_ids _ _ _ 1

/-- C2 (amended): the returned cluster list is sorted by size descending,
and the surviving clusters carry the 1-based consecutive ids 1..n — but the
ids were assigned in first-encounter order before the sort, so they form a
permutation of 1..n along the returned list rather than following it. -/
theorem c2_amended (docs : List Doc) :
    ((clusterDocuments docs).1.Pairwise fun a b => b.size ≤ a.size) ∧
    ((clusterDocuments docs).1.map TopicCluster.id).Perm
      (List.range' 1 (clusterDocuments docs).1.length) := by
  have htot : ∀ a b : TopicCluster,
      clusterSortLe a b = true ∨ clusterSortLe b a = true := by
    intro a b; simp [clusterSortLe]; omega
  have htrans : ∀ a b c : TopicCluster, clusterSortLe a b = true →
      clusterSortLe b c = true → clusterSortLe a c = true := by
    intro a b c; simp [clusterSortLe]; omega
  have hperm : ((clusterDocuments docs).1).Perm ((survivorsOf docs).map Prod.snd) :=
    sortByLe_perm clusterSortLe _
  constructor
  · have hp := sortByLe_pairwise clusterSortLe htot htrans
      ((survivorsOf docs).map Prod.snd)
    exact hp.imp fun h => by simpa [clusterSortLe] using h
  · obtain ⟨k, hk⟩ := survivorsOf_ids docs
    have hmap := hperm.map TopicCluster.id
    have hcomp : ((survivorsOf docs).map Prod.snd).map TopicCluster.id
        = (survivorsOf docs).map fun kc => kc.2.id := by
      rw [List.map_map]; rfl
    rw [hcomp, hk] at hmap
    have hlen : (clusterDocuments docs).1.length = k := by
      have h1 := hperm.length_eq
      have h2 : (survivorsOf docs).length = k := by
        have := congrArg List.length hk
        simpa using this
      simpa [h2] using h1
    rw [hlen]
    exact hmap

theorem mapAppend_keys (k : String) (d : Doc) :
    ∀ m : List (String × List Doc),
      (mapAppend k d m).map Prod.fst =
        if k ∈ m.map Prod.fst then m.map Prod.fst else m.map Prod.fst ++ [k] := by
  intro m
  induction m with
  | nil => simp [mapAppend]
  | cons e rest ih =>
    obtain ⟨k2, ds⟩ := e
    by_cases h : k2 = k
    · simp [mapAppend, h]
    · have hb : (k2 == k) = false := by simpa using h
      by_cases hmem : k ∈ rest.map Prod.fst
      · simp [mapAppend, hb, ih, hmem, Ne.symm h]
      · simp [mapAppend, hb, ih, hmem, Ne.symm h]

theorem foldl_mapAppend_nodup (f : Doc → String) :
    ∀ (ds : List Doc) (m : List (String × List Doc)),
      (m.map Prod.fst).Nodup →
      ((ds.foldl (fun m d => mapAppend (f d) d m) m).map Prod.fst).Nodup := by
  intro ds
  induction ds with
  | nil => intro m h; simpa using h
  | cons d rest ih =>
    intro m h
    simp only [List.foldl_cons]
    apply ih
    rw [mapAppend_keys]
    by_cases hmem : f d ∈ m.map Prod.fst
    · simpa [hmem] using h
    · simp [hmem, List.nodup_append, h]

theorem clusterMapOf_keys_nodup (docs : List Doc) :
    ((clusterMapOf docs).map Prod.fst).Nodup :=
  foldl_mapAppend_nodup _ docs [] (by simp)

theorem survivorsAux_keys_sublist (total : ℕ) (toks : List (String × List String)) :
    ∀ entries nid,
      ((survivorsAux total toks entries nid).map Prod.fst).Sublist
        (entries.map Prod.fst) := by
  intro entries
  induction entries with
  | nil => intro nid; simp [survivorsAux]
  | cons e rest ih =>
    intro nid
    obtain ⟨key, members⟩ := e
    by_cases h : members.length < 5 ∧ mkRat members.length total < mkRat 1 100
    · simp only [survivorsAux, h, if_pos, List.map_cons]
      exact (ih nid).cons key
    · simp only [survivorsAux, h, if_neg, not_false_iff, List.map_cons]
      exact (ih (nid + 1)).cons₂ key

theorem survivorsOf_keys_nodup (docs : List Doc) :
    ((survivorsOf docs).map Prod.fst).Nodup :=
  (survivorsAux_keys_sublist _ _ _ 1).nodup (clusterMapOf_keys_nodup docs)

theorem find?_eq_some_of_mem_nodup {β : Type} :
    ∀ (l : List (String × β)) (kc : String × β),
      (l.map Prod.fst).Nodup → kc ∈ l →
      l.find? (fun kv => kv.1 == kc.1) = some kc := by
  intro l
  induction l with
  | nil => intro kc _ h; simp at h
  | cons a rest ih =>
    intro kc hnd hmem
    rw [List.map_cons] at hnd
    have hnd2 := List.nodup_cons.mp hnd
    rcases List.mem_cons.mp hmem with rfl | hmem2
    · exact List.find?_cons_of_pos _ (by simp)
    · have hkey : kc.1 ∈ rest.map Prod.fst := List.mem_map.mpr ⟨kc, hmem2, rfl⟩
      have hne : (a.1 == kc.1) = false := by
        simp only [beq_eq_false_iff_ne, ne_eq]
        intro he
        exact hnd2.1 (he ▸ hkey)
      rw [List.find?_cons_of_neg _ (by simp [hne])]
      exact ih kc hnd2.2 hmem2

/-- C8: cluster ids written onto documents reference clusters of the same
run — every member document of a surviving cluster receives exactly that
cluster's id, and documents whose provisional cluster was discarded keep
their cluster id unset. -/
theorem c8_cluster_ids_reference_run (docs : List Doc)
    (h : ∀ d ∈ docs, d.cluster_id = none) :
    (∀ d2 ∈ (clusterDocuments docs).2, ∀ i, d2.cluster_id = some i →
        ∃ c ∈ (clusterDocuments docs).1, c.id = i) ∧
    (∀ d ∈ docs, ∀ kc ∈ survivorsOf docs,
        kc.1 = docKey (tokenisedDocs docs) d →
        (clusterUpdateDoc docs d).cluster_id = some kc.2.id) ∧
    (∀ d ∈ docs,
        (∀ kc ∈ survivorsOf docs, kc.1 ≠ docKey (tokenisedDocs docs) d) →
        (clusterUpdateDoc docs d).cluster_id = none) := by
  refine ⟨?_, ?_, ?_⟩
  · intro d2 hd2 i hi
    have hd2m : d2 ∈ docs.map (clusterUpdateDoc docs) := hd2
    obtain ⟨d, hd, rfl⟩ := List.mem_map.mp hd2m
    unfold clusterUpdateDoc at hi
    cases hf : (survivorsOf docs).find?
        (fun kv => kv.1 == docKey (tokenisedDocs docs) d) with
    | some kv =>
      rw [hf] at hi
      simp only [Option.some_inj] at hi
      have hidm : kv.2.id = i := by simpa using hi
      have hmem := List.mem_of_find?_eq_some hf
      have hsnd : kv.2 ∈ (survivorsOf docs).map Prod.snd :=
        List.mem_map.mpr ⟨kv, hmem, rfl⟩
      exact ⟨kv.2, ((sortByLe_perm clusterSortLe _).mem_iff).mpr hsnd, hidm⟩
    | none =>
      rw [hf] at hi
      rw [h d hd] at hi
      exact absurd hi (by simp)
  · intro d hd kc hkc hkey
    unfold clusterUpdateDoc
    have hfind := find?_eq_some_of_mem_nodup (survivorsOf docs) kc
      (survivorsOf_keys_nodup docs) hkc
    rw [hkey] at hfind
    rw [hfind]
  · intro d hd hnone
    unfold clusterUpdateDoc
    cases hf : (survivorsOf docs).find?
        (fun kv => kv.1 == docKey (tokenisedDocs docs) d) with
    | some kv =>
      have hmem := List.mem_of_find?_eq_some hf
      have hp := List.find?_some hf
      exact absurd (by simpa using hp) (hnone kv hmem)
    | none => exact h d hd

/-- C8 witness: the invariant evaluated on the concrete three-document
batch (its hypothesis discharged by computation). -/
theorem c8_cluster_ids_reference_run_witness :
    (∀ d ∈ demoDocsC2, d.cluster_id = none) ∧
    (∀ d2 ∈ (clusterDocuments demoDocsC2).2, ∀ i, d2.cluster_id = some i →
        ∃ c ∈ (clusterDocuments demoDocsC2).1, c.id = i) :=
  ⟨by decide, (c8_cluster_ids_reference_run demoDocsC2 (by decide)).1⟩

/-! ## Stylometry -/

def imperativeVerbs : List String :=
  ["fai", "usa", "prova", "ricorda", "evita", "sii", "vai"]

/-- Python str.endswith("?"). -/
def strEndsWithQm (s : String) : Bool :=
  match s.toList.getLast? with
  | some c => c = '?'
  | none => false

/-- The four counters of _sentence_metrics. -/
structure SentMetrics where
  sentences : ℕ
  words : ℕ
  questions : ℕ
  imperatives : ℕ
deriving DecidableEq

/-- _sentence_metrics: iterate the sentences (the whole text as a single
sentence when the splitter returns nothing), accumulating word, question and
imperative counts. -/
def sentenceMetrics (text : String) : SentMetrics :=
  let sentences := match splitSentences text with | [] => [text] | s :: rest => s :: rest
  { sentences := sentences.length
    words := (sentences.map fun s => (findWords s).length).sum
    questions := (sentences.filter fun s => strEndsWithQm s).length
    imperatives := (sentences.filter fun s =>
        match (findWords s).head? with
        | some w => imperativeVerbs.contains (strLower w)
        | none => false).length }

/-- The per-document metrics dict of _compute_stylometry. -/
structure DocMetrics where
  avg_sentence_len : ℚ
  emoji_per_100w : ℚ
  questions_rate : ℚ
  imperative_rate : ℚ
  tt_ratioQ : ℚ
deriving DecidableEq

/-- The five per-document ratios, denominators floored at 1 exactly as in
the source (max(x, 1)). -/
def docMetricsOf (text : String) : DocMetrics :=
  let m := sentenceMetrics text
  let tokens := tokenize text
  { avg_sentence_len := (m.words : ℚ) / ((max m.sentences 1 : ℕ) : ℚ)
    emoji_per_100w := ((countEmojis text : ℚ) / ((max m.words 1 : ℕ) : ℚ)) * 100
    questions_rate := (m.questions : ℚ) / ((max m.sentences 1 : ℕ) : ℚ)
    imperative_rate := (m.imperatives : ℚ) / ((max m.sentences 1 : ℕ) : ℚ)
    tt_ratioQ := (tokens.dedup.length : ℚ) / ((max tokens.length 1 : ℕ) : ℚ) }

/-- Division as Python executes it: a zero denominator raises (None). -/
def checkedDiv (n d : ℚ) : Option ℚ :=
  if d = 0 then none else some (n / d)

/-- The per-document ratios with every division checked: none would mean a
ZeroDivisionError in the source. -/
def docMetricsChecked (text : String) : Option DocMetrics := do
  let m := sentenceMetrics text
  let tokens := tokenize text
  let a ← checkedDiv (m.words : ℚ) ((max m.sentences 1 : ℕ) : ℚ)
  let e ← checkedDiv (countEmojis text : ℚ) ((max m.words 1 : ℕ) : ℚ)
  let q ← checkedDiv (m.questions : ℚ) ((max m.sentences 1 : ℕ) : ℚ)
  let i ← checkedDiv (m.imperatives : ℚ) ((max m.sentences 1 : ℕ) : ℚ)
  let t ← checkedDiv (tokens.dedup.length : ℚ) ((max tokens.length 1 : ℕ) : ℚ)
  pure { avg_sentence_len := a, emoji_per_100w := e * 100, questions_rate := q,
         imperative_rate := i, tt_ratioQ := t }

/-- The StylometryMetrics dataclass. -/
structure StylometryMetrics where
  avg_sentence_len : ℚ
  emoji_per_100w : ℚ
  questions_rate : ℚ
  imperative_rate : ℚ
  tt_ratioQ : ℚ
deriving DecidableEq

/-- statistics.mean (callers guard against empty input as the source does). -/
def listMeanQ (l : List ℚ) : ℚ :=
  l.sum / (l.length : ℚ)

/-- The _aggregate closure of _compute_stylometry. -/
def aggregateMetrics (values : List DocMetrics) : StylometryMetrics :=
  if values.isEmpty then ⟨0, 0, 0, 0, 0⟩
  else
    { avg_sentence_len := listMeanQ (values.map DocMetrics.avg_sentence_len)
      emoji_per_100w := listMeanQ (values.map DocMetrics.emoji_per_100w)
      questions_rate := listMeanQ (values.map DocMetrics.questions_rate)
      imperative_rate := listMeanQ (values.map DocMetrics.imperative_rate)
      tt_ratioQ := listMeanQ (values.map DocMetrics.tt_ratioQ) }

/-- Generic dict assignment m[k] = v (overwrite in place, append new keys). -/
def dictUpsert {β : Type} (k : String) (v : β) :
    List (String × β) → List (String × β)
  | [] => [(k, v)]
  | (k2, v2) :: rest =>
    if k2 == k then (k2, v) :: rest else (k2, v2) :: dictUpsert k v rest

/-- Generic defaultdict(list) append. -/
def mapAppendGen {κ β : Type} [BEq κ] (k : κ) (v : β) :
    List (κ × List β) → List (κ × List β)
  | [] => [(k, [v])]
  | (k2, vs) :: rest =>
    if k2 == k then (k2, vs ++ [v]) :: rest else (k2, vs) :: mapAppendGen k v rest

/-- _compute_stylometry: per-document metrics (dict keyed by id, last write
wins), per-platform buckets (lowercased platform), and the aggregates. -/
def computeStylometry (docs : List Doc) :
    StylometryMetrics × List (String × StylometryMetrics) × List (String × DocMetrics) :=
  let perDoc := docs.foldl (fun m d => dictUpsert d.id (docMetricsOf d.text) m) []
  let perPlatform :=
    docs.foldl (fun m d => mapAppendGen (strLower d.platform) (docMetricsOf d.text) m) []
  (aggregateMetrics (perDoc.map Prod.snd),
   perPlatform.map fun kv => (kv.1, aggregateMetrics kv.2),
   perDoc)

/-! ## Claim C9: stylometry totality -/

/-- C9: for every text — empty text, zero sentences, zero words, zero tokens
included — every one of the five per-document ratios divides by a denominator
floored at 1, so the checked computation never hits a zero denominator and
agrees with the unchecked one. -/
theorem c9_stylometry_total (text : String) :
    docMetricsChecked text = some (docMetricsOf text) := by
  have h : ∀ n : ℕ, ((n : ℚ) ⊔ 1) ≠ 0 := by
    intro n
    have h1 : (0 : ℚ) < (n : ℚ) ⊔ 1 := lt_of_lt_of_le one_pos (le_max_right _ _)
    exact h1.ne'
  simp [docMetricsChecked, docMetricsOf, checkedDiv, h]

/-! ## Evolution tracker (over ℝ, for log2 and sqrt) -/

/-- The imperative set of _split_by_time (it lacks "vai", unlike
_sentence_metrics). -/
def evoImperativeVerbs : List String :=
  ["fai", "usa", "prova", "ricorda", "evita", "sii"]

/-- The per-document style vector built inside _split_by_time._collect. -/
structure StyleVec where
  avg_sentence_len : ℝ
  emoji_per_100w : ℝ
  questions_rate : ℝ
  imperative_rate : ℝ
  tt_ratioQ : ℝ

noncomputable def evoStyleVec (text : String) : StyleVec :=
  let sentences := splitSentences text
  let sentenceCount : ℕ := if sentences.isEmpty then 1 else sentences.length
  let words := findWords text
  let tokens := tokenize text
  let tokenCount : ℕ := if tokens.length = 0 then 1 else tokens.length
  { avg_sentence_len := (words.length : ℝ) / (sentenceCount : ℝ)
    emoji_per_100w := ((countEmojis text : ℝ) / ((max words.length 1 : ℕ) : ℝ)) * 100
    questions_rate := if strEndsWithQm (strStrip text) then 1 else 0
    imperative_rate :=
      if (match words.head? with
          | some w => evoImperativeVerbs.contains (strLower w)
          | none => false) then 1 else 0
    tt_ratioQ := (tokens.dedup.length : ℝ) / (tokenCount : ℝ) }

/-- The _WindowedData dataclass (topics is a Counter keyed by str(cluster_id)). -/
structure WindowedData where
  topics : List (String × ℕ)
  style_metrics : List StyleVec

/-- The _collect closure of _split_by_time. -/
noncomputable def collectWindow (docs : List Doc) : WindowedData :=
  { topics := docs.foldl
      (fun c d => match d.cluster_id with
        | some cid => counterIncr c (toString cid)
        | none => c) []
    style_metrics := docs.map fun d => evoStyleVec d.text }

def tsLe (a b : Doc) : Bool :=
  decide (a.ts ≤ b.ts)

/-- _split_by_time with the fixed window_days = 180: sort by timestamp,
cutoff at latest minus 180 days, past strictly before, recent on/after. -/
noncomputable def splitByTime (docs : List Doc) : WindowedData × WindowedData :=
  if docs.isEmpty then (⟨[], []⟩, ⟨[], []⟩)
  else
    let docsSorted := sortByLe tsLe docs
    let latest : ℚ := (docsSorted.map fun d => d.ts).getLastD 0
    let cutoff := latest - 180
    (collectWindow (docsSorted.filter fun d => decide (d.ts < cutoff)),
     collectWindow (docsSorted.filter fun d => decide (cutoff ≤ d.ts)))

/-- _probabilities_from_counts: zero map when the counter sums to 0,
otherwise counts normalised by the total. -/
noncomputable def probsFromCounts (counts : List (String × ℕ)) : List (String × ℝ) :=
  let total := (counts.map Prod.snd).sum
  if total = 0 then counts.map fun kv => (kv.1, 0)
  else counts.map fun kv => (kv.1, (kv.2 : ℝ) / (total : ℝ))

/-- dict.get(key, 0.0) on a probability map. -/
def dget (d : List (String × ℝ)) (k : String) : ℝ :=
  match d.find? (fun kv => kv.1 == k) with
  | some kv => kv.2
  | none => 0

/-- set(p): the key set of a probability map. -/
def dkeys (d : List (String × ℝ)) : Finset String :=
  (d.map Prod.fst).toFinset

/-- One summand of the inner _kl loop: zero-probability terms are skipped,
the denominator is floored at 1e-12. -/
noncomputable def klTerm (v m : ℝ) : ℝ :=
  if v = 0 then 0 else v * Real.logb 2 (v / max m (1 / 10 ^ 12))

noncomputable def klSum (keys : Finset String) (dp dm : String → ℝ) : ℝ :=
  keys.sum fun k => klTerm (dp k) (dm k)

/-- _jensen_shannon: keys are the union of both key sets, m the midpoint
map, result the mean of the two Kullback–Leibler sums against m. -/
noncomputable def jensenShannon (p q : List (String × ℝ)) : ℝ :=
  let keys := dkeys p ∪ dkeys q
  let m : String → ℝ := fun k => 1/2 * (dget p k + dget q k)
  1/2 * (klSum keys (dget p) m + klSum keys (dget q) m)

noncomputable def meanR (xs : List ℝ) : ℝ :=
  xs.sum / (xs.length : ℝ)

/-- statistics.pstdev: population standard deviation. -/
noncomputable def pstdevR (xs : List ℝ) : ℝ :=
  Real.sqrt ((xs.map fun x => (x - meanR xs) ^ 2).sum / (xs.length : ℝ))

/-- The per-metric step of _mean_abs_z: pooled mean/σ over both windows
(σ is 0 unless the pool has more than one sample), z-scores 0 when σ is 0,
and the absolute z-difference between the windows otherwise. -/
noncomputable def metricDelta (past recent : List ℝ) : ℝ :=
  let allv := past ++ recent
  let mu := meanR allv
  let sigma := if 1 < allv.length then pstdevR allv else 0
  if sigma = 0 then 0
  else |((meanR recent - mu) / sigma) - ((meanR past - mu) / sigma)|

/-- _mean_abs_z: mean absolute z-difference across the five style metrics,
0 when either window is empty. -/
noncomputable def meanAbsZ (past recent : List StyleVec) : ℝ :=
  if past.isEmpty || recent.isEmpty then 0
  else
    (metricDelta (past.map StyleVec.avg_sentence_len)
        (recent.map StyleVec.avg_sentence_len) +
     metricDelta (past.map StyleVec.emoji_per_100w)
        (recent.map StyleVec.emoji_per_100w) +
     metricDelta (past.map StyleVec.questions_rate)
        (recent.map StyleVec.questions_rate) +
     metricDelta (past.map StyleVec.imperative_rate)
        (recent.map StyleVec.imperative_rate) +
     metricDelta (past.map StyleVec.tt_ratioQ)
        (recent.map StyleVec.tt_ratioQ)) / 5

/-- The EvolutionResult dataclass. -/
structure EvolutionResult where
  evolution_score : ℝ
  evolution_flag : String
  change_points : List String

/-- round(x, 2) over ℝ. -/
noncomputable def round2R (x : ℝ) : ℝ :=
  (round (x * 100) : ℤ) / 100

/-- evolution_tracker: split by time, short-circuit when both topic maps are
empty, otherwise combine Jensen–Shannon divergence and style drift into the
clamped score, derive the flag, and collect emergent change points. -/
noncomputable def evolutionTracker (docs : List Doc) : EvolutionResult :=
  let pr := splitByTime docs
  let pastProbs := probsFromCounts pr.1.topics
  let recentProbs := probsFromCounts pr.2.topics
  if pr.1.topics.isEmpty ∧ pr.2.topics.isEmpty then ⟨0, "low", []⟩
  else
    let jsd :=
      if ¬pastProbs.isEmpty ∧ ¬recentProbs.isEmpty then jensenShannon pastProbs recentProbs
      else 0
    let styleDelta := meanAbsZ pr.1.style_metrics pr.2.style_metrics
    let score := max 0 (min (jsd * (1/2) + styleDelta * (1/2)) 1)
    let flag :=
      if 65/100 ≤ score then "high"
      else if 35/100 ≤ score then "moderate"
      else "low"
    let cps := recentProbs.foldr
      (fun kv acc =>
        if 12/100 ≤ kv.2 ∧ dget pastProbs kv.1 < 5/100 then kv.1 :: acc else acc) []
    ⟨round2R score, flag, cps⟩

/-! ## Claim C7: Jensen–Shannon symmetry -/

/-- C7: the Jensen–Shannon divergence of the module is symmetric in its two
probability maps. -/
theorem c7_jsd_symmetric (p q : List (String × ℝ)) :
    jensenShannon p q = jensenShannon q p := by
  unfold jensenShannon
  rw [Finset.union_comm]
  have hm : (fun k => 1/2 * (dget p k + dget q k))
      = fun k => 1/2 * (dget q k + dget p k) := by
    funext k; ring
  rw [hm]
  ring

/-! ## Claim C4: the evolution scenario of the spec and the repo test -/

def evoPastText : String := "Parlo di allenamento ogni giorno"

def evoRecentText : String := "Nuovo tema sulla nutrizione completa"

/-- One past document of the scenario (cluster 1, > 200 days old). -/
def evoOld (i : String) (t : ℚ) : Doc :=
  { mkDoc i t "instagram" evoPastText with kind := "organic", cluster_id := some 1 }

/-- One recent document of the scenario (cluster 2, last 10 days). -/
def evoNew (i : String) (t : ℚ) : Doc :=
  { mkDoc i t "instagram" evoRecentText with kind := "organic", cluster_id := some 2 }

/-- The batch of test_evolution_tracker_high_flag_on_topic_shift, with now
at day 1000: past at now-200, now-201, now-202, recent at now-10, -9, -8. -/
def evoTestDocs : List Doc :=
  [evoOld "old0" 800, evoOld "old1" 799, evoOld "old2" 798,
   evoNew "new0" 990, evoNew "new1" 991, evoNew "new2" 992]

def evoSortedDocs : List Doc :=
  [evoOld "old2" 798, evoOld "old1" 799, evoOld "old0" 800,
   evoNew "new0" 990, evoNew "new1" 991, evoNew "new2" 992]

def evoPastDocs : List Doc :=
  [evoOld "old2" 798, evoOld "old1" 799, evoOld "old0" 800]

def evoRecentDocs : List Doc :=
  [evoNew "new0" 990, evoNew "new1" 991, evoNew "new2" 992]

theorem evo_split :
    splitByTime evoTestDocs = (collectWindow evoPastDocs, collectWindow evoRecentDocs) := by
  have hsort : sortByLe tsLe evoTestDocs = evoSortedDocs := by decide
  have hlast : (evoSortedDocs.map fun d => d.ts).getLastD 0 = 992 := by decide
  have hcut : (992 : ℚ) - 180 = 812 := by norm_num
  have hpast : evoSortedDocs.filter (fun d => decide (d.ts < (812:ℚ))) = evoPastDocs := by
    decide
  have hrecent : evoSortedDocs.filter (fun d => decide ((812:ℚ) ≤ d.ts)) = evoRecentDocs := by
    decide
  have hemp : evoTestDocs.isEmpty = false := by decide
  simp only [splitByTime, hemp, Bool.false_eq_true, if_false, hsort, hlast, hcut,
    hpast, hrecent]

theorem meanR_const (l : List ℝ) (c : ℝ) (h : ∀ x ∈ l, x = c) (hne : l ≠ []) :
    meanR l = c := by
  unfold meanR
  rw [List.sum_eq_card_nsmul l c h]
  have hlen : (0 : ℝ) < (l.length : ℝ) := by
    have : 0 < l.length := List.length_pos.mpr hne
    exact_mod_cast this
  field_simp

theorem pstdevR_zero (l : List ℝ) (c : ℝ) (h : ∀ x ∈ l, x = c) :
    pstdevR l = 0 := by
  unfold pstdevR
  rcases eq_or_ne l [] with rfl | hne
  · simp
  · have hmean := meanR_const l c h hne
    have hzero : (l.map fun x => (x - meanR l) ^ 2).sum = 0 := by
      apply List.sum_eq_zero
      intro y hy
      rcases List.mem_map.mp hy with ⟨x, hx, rfl⟩
      rw [h x hx, hmean]
      ring
    rw [hzero]
    simp

theorem metricDelta_const (past recent : List ℝ) (c : ℝ)
    (h : ∀ x ∈ past ++ recent, x = c) :
    metricDelta past recent = 0 := by
  have hpst := pstdevR_zero (past ++ recent) c h
  simp [metricDelta, hpst]

/-- The shared style vector of both scenario texts: 5 words in one sentence,
no emoji, no question, no imperative, all tokens distinct. -/
noncomputable def evoUnitVec : StyleVec :=
  ⟨5, 0, 0, 0, 1⟩

theorem evoStyleVec_past : evoStyleVec evoPastText = evoUnitVec := by
  have hs : splitSentences evoPastText = [evoPastText] := by decide
  have hwords : findWords evoPastText = ["Parlo", "di", "allenamento", "ogni", "giorno"] := by
    decide
  have htok : tokenize evoPastText = ["parlo", "allenamento", "ogni", "giorno"] := by decide
  have hemoji : countEmojis evoPastText = 0 := by decide
  have hqm : strEndsWithQm (strStrip evoPastText) = false := by decide
  have himp : evoImperativeVerbs.contains (strLower "Parlo") = false := by decide
  have hdedup : (["parlo", "allenamento", "ogni", "giorno"] : List String).dedup.length
      = 4 := by decide
  simp only [evoStyleVec, hs, hwords, htok, hemoji, hqm, himp, hdedup, evoUnitVec,
    List.head?_cons, List.length_cons, List.length_nil]
  norm_num

theorem evoStyleVec_recent : evoStyleVec evoRecentText = evoUnitVec := by
  have hs : splitSentences evoRecentText = [evoRecentText] := by decide
  have hwords : findWords evoRecentText
      = ["Nuovo", "tema", "sulla", "nutrizione", "completa"] := by decide
  have htok : tokenize evoRecentText
      = ["nuovo", "tema", "sulla", "nutrizione", "completa"] := by decide
  have hemoji : countEmojis evoRecentText = 0 := by decide
  have hqm : strEndsWithQm (strStrip evoRecentText) = false := by decide
  have himp : evoImperativeVerbs.contains (strLower "Nuovo") = false := by decide
  have hdedup : (["nuovo", "tema", "sulla", "nutrizione", "completa"] : List String).dedup.length
      = 5 := by decide
  simp only [evoStyleVec, hs, hwords, htok, hemoji, hqm, himp, hdedup, evoUnitVec,
    List.head?_cons, List.length_cons, List.length_nil]
  norm_num

theorem evo_meanAbsZ_zero :
    meanAbsZ [evoUnitVec, evoUnitVec, evoUnitVec] [evoUnitVec, evoUnitVec, evoUnitVec]
      = 0 := by
  have hconst : ∀ c : ℝ, ∀ x ∈ ([c, c, c] ++ [c, c, c]), x = c := by
    intro c x hx
    simp at hx
    exact hx
  simp only [meanAbsZ, List.isEmpty_cons, Bool.false_or, if_false, List.map_cons,
    List.map_nil, Bool.or_self, Bool.false_eq_true, evoUnitVec]
  rw [metricDelta_const _ _ 5 (hconst 5), metricDelta_const _ _ 0 (hconst 0),
    metricDelta_const _ _ 1 (hconst 1)]
  norm_num

theorem klTerm_one_half : klTerm 1 ((1:ℝ)/2) = 1 := by
  unfold klTerm
  rw [if_neg one_ne_zero]
  have hmax : max ((1:ℝ)/2) (1/10 ^ 12) = 1/2 := max_eq_left (by norm_num)
  rw [hmax]
  have h2 : (1:ℝ) / (1/2) = 2 := by norm_num
  rw [h2, one_mul]
  exact Real.logb_self_eq_one (by norm_num)

theorem evo_jsd_one :
    jensenShannon [("1", (1:ℝ))] [("2", (1:ℝ))] = 1 := by
  have hkeys : dkeys [("1", (1:ℝ))] ∪ dkeys [("2", (1:ℝ))] = {"1", "2"} := by decide
  have hp1 : dget [("1", (1:ℝ))] "1" = 1 := rfl
  have hp2 : dget [("1", (1:ℝ))] "2" = 0 := rfl
  have hq1 : dget [("2", (1:ℝ))] "1" = 0 := rfl
  have hq2 : dget [("2", (1:ℝ))] "2" = 1 := rfl
  simp only [jensenShannon, klSum]
  rw [hkeys]
  rw [Finset.sum_insert (by decide), Finset.sum_singleton,
    Finset.sum_insert (by decide), Finset.sum_singleton]
  rw [hp1, hp2, hq1, hq2]
  have ha : klTerm 1 ((1:ℝ)/2 * (1 + 0)) = 1 := by
    rw [show ((1:ℝ)/2 * (1 + 0)) = 1/2 by ring]; exact klTerm_one_half
  have hb : klTerm 1 ((1:ℝ)/2 * (0 + 1)) = 1 := by
    rw [show ((1:ℝ)/2 * (0 + 1)) = 1/2 by ring]; exact klTerm_one_half
  have hz : ∀ m : ℝ, klTerm 0 m = 0 := fun m => by simp [klTerm]
  rw [ha, hb, hz, hz]
  norm_num

/-- C4: on the repository's own evolution test batch (3 documents in cluster
1 more than 200 days old, 3 in cluster 2 within the last 10 days), the code
returns score 0.5 with flag "moderate" (and change point "2"): both windows
have identical style metrics, so style_delta is 0 and the score is
0.5 x jsd = 0.5 < 0.65, contradicting the claim and the repository test,
which demand flag "high" and score >= 0.65. -/
theorem c4_code_result :
    evolutionTracker evoTestDocs = ⟨1/2, "moderate", ["2"]⟩ := by
  have htop1 : (collectWindow evoPastDocs).topics = [("1", 3)] := by decide
  have htop2 : (collectWindow evoRecentDocs).topics = [("2", 3)] := by decide
  have hsty1 : (collectWindow evoPastDocs).style_metrics
      = [evoStyleVec evoPastText, evoStyleVec evoPastText, evoStyleVec evoPastText] := rfl
  have hsty2 : (collectWindow evoRecentDocs).style_metrics
      = [evoStyleVec evoRecentText, evoStyleVec evoRecentText,
         evoStyleVec evoRecentText] := rfl
  have hprob1 : probsFromCounts [("1", 3)] = [("1", (1:ℝ))] := by
    simp [probsFromCounts]
  have hprob2 : probsFromCounts [("2", 3)] = [("2", (1:ℝ))] := by
    simp [probsFromCounts]
  have hdg : dget [("1", (1:ℝ))] "2" = 0 := rfl
  simp only [evolutionTracker, evo_split, htop1, htop2, hsty1, hsty2, hprob1, hprob2,
    evoStyleVec_past, evoStyleVec_recent]
  rw [if_neg (by simp)]
  rw [if_pos (by simp : ¬([("1", (1:ℝ))].isEmpty = true) ∧ ¬([("2", (1:ℝ))].isEmpty = true))]
  rw [evo_jsd_one, evo_meanAbsZ_zero]
  have hscore : max (0:ℝ) (min ((1:ℝ) * (1/2) + 0 * (1/2)) 1) = 1/2 := by norm_num
  rw [hscore]
  rw [if_neg (by norm_num : ¬((65:ℝ)/100 ≤ 1/2))]
  rw [if_pos (by norm_num : (35:ℝ)/100 ≤ 1/2)]
  have hr : round2R ((1:ℝ)/2) = 1/2 := by
    unfold round2R
    norm_num [round_eq]
  rw [hr]
  simp only [List.foldr_cons, List.foldr_nil]
  rw [hdg]
  rw [if_pos (by norm_num : (12:ℝ)/100 ≤ 1 ∧ (0:ℝ) < 5/100)]

/-! ## Claim extraction -/

def proKeywords : List String :=
  ["amo", "adoro", "ottimo", "pro", "favore", "consiglio", "vale"]

def conKeywords : List String :=
  ["odio", "sconsiglio", "contro", "evito", "male", "no"]

/-- The \w-run words of a string (no apostrophe), for word-boundary tests. -/
def wordsW (s : String) : List String :=
  (runsAux isWordChar s.toList []).map fun cs => ⟨cs⟩

/-- Matcher for a two-word pattern w1\s+w2 with trailing word boundary,
anchored at the head of the list. -/
def seqMatchAt (w1 w2 : List Char) (l : List Char) : Bool :=
  match dropPref w1 l with
  | some r1 =>
    let r2 := r1.dropWhile Char.isWhitespace
    decide (r2 ≠ r1) &&
      (match dropPref w2 r2 with
       | some r3 => (match r3 with | c :: _ => !isWordChar c | [] => true)
       | none => false)
  | none => false

/-- Scan for \bw1\s+w2\b anywhere: try each position whose predecessor is
not a word character. -/
def seqScan (w1 w2 : List Char) : Bool → List Char → Bool
  | _, [] => false
  | prevWord, c :: rest =>
    (!prevWord && seqMatchAt w1 w2 (c :: rest)) || seqScan w1 w2 (isWordChar c) rest

/-- The _CLAIM_PATTERNS test: the five single-word patterns become
whole-word membership of the lowercased sentence (the regexes carry \b on
both sides), the two two-word patterns use the \s+ scanner. -/
def claimTrigger (sentence : String) : Bool :=
  let lower := strLower sentence
  let toks := wordsW lower
  toks.contains "credo" || toks.contains "consiglio" || toks.contains "evito" ||
  toks.contains "devi" || toks.contains "dovresti" ||
  seqScan "mai".toList "più".toList false lower.toList ||
  seqScan "non".toList "fare".toList false lower.toList

/-- The per-candidate accumulator of _extract_claim_candidates. -/
structure ClaimAcc where
  text : String
  support_docs : List String
  evidence_ids : List String
  pro : ℕ
  contra : ℕ

/-- Python set.add (only cardinality and the sorted view are consumed). -/
def setAdd (l : List String) (x : String) : List String :=
  if l.contains x then l else l ++ [x]

/-- _extract_claim_candidates: trigger-matching sentences, deduplicated by
lowercased text, accumulating supports and pro/contra keyword hits. -/
def extractClaimCandidates (clusterDocs : List Doc) : List (String × ClaimAcc) :=
  clusterDocs.foldl
    (fun claims d =>
      (splitSentences d.text).foldl
        (fun claims sentence =>
          if claimTrigger sentence then
            let key := strLower sentence
            let entry :=
              match claims.find? (fun kv => kv.1 == key) with
              | some kv => kv.2
              | none => { text := sentence, support_docs := [], evidence_ids := [],
                          pro := 0, contra := 0 }
            let entry := { entry with
              support_docs := setAdd entry.support_docs d.id,
              evidence_ids := setAdd entry.evidence_ids d.id }
            let toks := tokenize sentence
            let entry :=
              if toks.any (fun t => proKeywords.contains t) then
                { entry with pro := entry.pro + 1 } else entry
            let entry :=
              if toks.any (fun t => conKeywords.contains t) then
                { entry with contra := entry.contra + 1 } else entry
            dictUpsert key entry claims
          else claims)
        claims)
    []

def determineStance (a : ClaimAcc) : String :=
  if a.contra < a.pro then "pro"
  else if a.pro < a.contra then "contra"
  else "neutro"

def paraphraseClaim (text stance : String) : String :=
  let stancePre :=
    if stance = "pro" then "sostengono"
    else if stance = "contra" then "mettono in guardia"
    else "osservano"
  "Gli autori " ++ stancePre ++ " che " ++ strStrip text

/-- A finished claim record. -/
structure Claim where
  topic : String
  text : String
  stance : String
  confidence : ℚ
  coverage : ℚ
  evidence_ids : List String
  controversial : Bool

/-- _build_claims: per surviving cluster, mine candidates, apply the
support/coverage filter, score and paraphrase; also the topic index. -/
def buildClaims (clusters : List TopicCluster) (documents : List Doc) :
    List Claim × List (ℕ × List String) :=
  let byCluster := documents.foldl
    (fun m d => match d.cluster_id with
      | some cid => mapAppendGen cid d m
      | none => m) []
  clusters.foldl
    (fun acc cluster =>
      let docsInCluster :=
        match byCluster.find? (fun kv => kv.1 == cluster.id) with
        | some kv => kv.2
        | none => []
      if docsInCluster.isEmpty then acc
      else
        (extractClaimCandidates docsInCluster).foldl
          (fun acc kv =>
            let cand := kv.2
            let coverage : ℚ :=
              (cand.support_docs.length : ℚ) / ((max docsInCluster.length 1 : ℕ) : ℚ)
            if cand.support_docs.length < 2 ∧ coverage < 15/100 then acc
            else
              let stance := determineStance cand
              let claim : Claim :=
                { topic := match cluster.top_terms with | [] => "vario" | t :: _ => t
                  text := paraphraseClaim cand.text stance
                  stance := stance
                  confidence := round2 (min (9/10)
                    (1/2 + (1/10) * (cand.support_docs.length : ℚ) + (3/10) * coverage))
                  coverage := round2 coverage
                  evidence_ids := sortByLe (fun a b => decide (a ≤ b)) cand.evidence_ids
                  controversial := decide (0 < cand.pro) && decide (0 < cand.contra) }
              (acc.1 ++ [claim], mapAppendGen cluster.id claim.topic acc.2))
          acc)
    ([], [])

/-! ## Consolidator and blueprint -/

structure TopicWeight where
  topic : String
  weight : ℚ

/-- _build_topics_distribution: coverage renormalised by the coverage sum
(or by 1 when the sum is falsy, i.e. zero). -/
def buildTopicsDistribution (clusters : List TopicCluster) : List TopicWeight :=
  let s := (clusters.map TopicCluster.coverage).sum
  let total := if s = 0 then 1 else s
  clusters.map fun c =>
    { topic := match c.top_terms with | [] => "vario" | t :: _ => t
      weight := round2 (c.coverage / total) }

/-- _derive_tone_labels. -/
def deriveToneLabels (m : StylometryMetrics) : List String :=
  (if 2/10 < m.questions_rate then ["coinvolgente"] else []) ++
  (if 1 < m.emoji_per_100w then ["informale"] else []) ++
  (if 15 < m.avg_sentence_len then ["approfondito"] else ["diretto"]) ++
  (if 2/10 < m.imperative_rate then ["motivazionale"] else [])

structure CoreValue where
  value : String
  confidence : ℚ
  coverage : ℚ
  source_ids : List String

/-- Python max(list, default=d). -/
def listMaxQD (l : List ℚ) (dflt : ℚ) : ℚ :=
  match l with
  | [] => dflt
  | x :: xs => xs.foldl max x

/-- _derive_core_values: fuse each cluster (with enough coverage or at least
one associated claim) with its claims. -/
def deriveCoreValues (clusters : List TopicCluster) (claims : List Claim) :
    List CoreValue :=
  let claimMap := claims.foldl (fun m c => mapAppendGen c.topic c m) []
  clusters.foldl
    (fun vals cluster =>
      match cluster.top_terms with
      | [] => vals
      | topic :: _ =>
        let associated :=
          match claimMap.find? (fun kv => kv.1 == topic) with
          | some kv => kv.2
          | none => []
        if cluster.coverage < 15/100 ∧ associated.length < 1 then vals
        else
          vals ++ [{
            value := topic
            confidence := round2
              (if associated.isEmpty then 6/10
               else listMeanQ (associated.map Claim.confidence))
            coverage := round2 (listMaxQD (associated.map Claim.coverage) cluster.coverage)
            source_ids := sortByLe (fun a b => decide (a ≤ b))
              (associated.foldl (fun s c => c.evidence_ids.foldl setAdd s) []) }])
    []

structure Belief where
  topic : String
  stance : String
  confidence : ℚ
  coverage : ℚ
  evidence_ids : List String
  controversial : Bool

/-- _build_beliefs_positions: a direct projection of the claim records. -/
def buildBeliefs (claims : List Claim) : List Belief :=
  claims.map fun c =>
    { topic := c.topic, stance := c.stance, confidence := c.confidence,
      coverage := c.coverage, evidence_ids := c.evidence_ids,
      controversial := c.controversial }

structure EvidenceEntry where
  id : String
  url : String
  snippet : String
  kind : String
  lang : Option String
  mixed_lang : Bool

/-- doc.text.strip().split to the first line, truncated to 140 characters. -/
def firstLineTrunc (text : String) : String :=
  ⟨((strStrip text).toList.takeWhile fun c => c ≠ '\n').take 140⟩

/-- _build_evidence. -/
def buildEvidence (docs : List Doc) : List EvidenceEntry :=
  docs.map fun d =>
    { id := d.id, url := d.url, snippet := firstLineTrunc d.text,
      kind := d.kind, lang := d.lang, mixed_lang := d.mixed_lang }

/-- _sponsored_weight: share of documents labelled sponsored. -/
def sponsoredWeight (docs : List Doc) : ℚ :=
  if docs.isEmpty then 0
  else ((docs.filter fun d => d.sponsored_label == some "sponsored").length : ℚ)
    / (docs.length : ℚ)

structure Angle where
  angle : String
  min_conf : ℚ
  from_topic : String

/-- _blueprint_angles: skip clusters with a controversial associated claim,
label by the dati term / coverage rule. -/
def blueprintAngles (clusters : List TopicCluster) (claims : List Claim) :
    List Angle :=
  let claimMap := claims.foldl (fun m c => mapAppendGen c.topic c m) []
  clusters.foldl
    (fun angles cluster =>
      match cluster.top_terms with
      | [] => angles
      | topic :: _ =>
        let associated :=
          match claimMap.find? (fun kv => kv.1 == topic) with
          | some kv => kv.2
          | none => []
        if associated.any Claim.controversial then angles
        else
          let minConf :=
            match associated with
            | [] => 6/10
            | c :: cs => cs.foldl (fun m x => min m x.confidence) c.confidence
          let label :=
            if cluster.top_terms.contains "dati" then "data-driven"
            else if cluster.coverage < 2/10 then "controintuitivo"
            else "best-practice"
          angles ++ [{ angle := label, min_conf := round2 minConf, from_topic := topic }])
    []

structure Guardrails where
  must : List String
  avoid : List String

/-- _voice_guardrails over the rounded voice metrics of the profile. -/
def voiceGuardrails (m : StylometryMetrics) : Guardrails :=
  { must := if m.avg_sentence_len < 12 then ["hook entro 3s"]
            else ["approfondire con esempi"]
    avoid := if 3/10 < m.questions_rate then ["interrogativi retorici eccessivi"]
             else ["claim non verificabili"] }

structure SponsoredPolicy where
  use_ads_content : Bool
  reason : String

/-- _sponsored_policy. -/
def sponsoredPolicy (docs : List Doc) : SponsoredPolicy :=
  let share := sponsoredWeight docs
  let useAds := decide (3/10 ≤ share)
  { use_ads_content := useAds
    reason := if useAds then "sufficiente materiale sponsorizzato"
              else "training copy on organic only" }

structure Influencer where
  handle : String
  platforms : List String
  languages : List String

structure DataQuality where
  docs_total : ℕ
  mixed_lang_docs : ℚ
  sponsored_share : ℚ
  evolution_score : ℝ
  evolution_flag : String

/-- The PersonaProfile dataclass (voice_style split into its metrics, tone
labels and taboos; last_updated keeps the raw timestamp, date formatting is
not modelled). -/
structure PersonaProfile where
  influencer : Influencer
  data_quality : DataQuality
  core_values : List CoreValue
  beliefs_positions : List Belief
  voice_metrics : StylometryMetrics
  tone_labels : List String
  taboos_redlines : List String
  topics_distribution : List TopicWeight
  evidence : List EvidenceEntry
  last_updated : ℚ

/-- sorted(set(platforms)). -/
def dedupSortedPlatforms (docs : List Doc) : List String :=
  sortByLe (fun a b : String => decide (a ≤ b)) (docs.map fun d => d.platform).dedup

/-- _build_persona_profile.  The result is an Option: last_updated is
max(doc.ts for doc in documents), and max of an empty sequence raises
ValueError in Python, modelled as none. -/
def buildPersonaProfile (targetLanguage : String) (docs : List Doc)
    (clusters : List TopicCluster) (claims : List Claim)
    (globalMetrics : StylometryMetrics) (evolution : EvolutionResult)
    (handle : String) (platforms languages : Option (List String)) :
    Option PersonaProfile :=
  let mixedRatio : ℚ :=
    ((docs.filter fun d => d.mixed_lang).length : ℚ) / ((max docs.length 1 : ℕ) : ℚ)
  let share := sponsoredWeight docs
  ((docs.map fun d => d.ts).max?).map fun lastUpdated =>
    { influencer :=
        { handle := handle
          platforms :=
            match platforms with
            | some p => if p.isEmpty then dedupSortedPlatforms docs else p
            | none => dedupSortedPlatforms docs
          languages :=
            match languages with
            | some l => if l.isEmpty then [targetLanguage] else l
            | none => [targetLanguage] }
      data_quality :=
        { docs_total := docs.length
          mixed_lang_docs := round2 mixedRatio
          sponsored_share := round2 share
          evolution_score := evolution.evolution_score
          evolution_flag := evolution.evolution_flag }
      core_values := deriveCoreValues clusters claims
      beliefs_positions := buildBeliefs claims
      voice_metrics :=
        { avg_sentence_len := round2 globalMetrics.avg_sentence_len
          emoji_per_100w := round2 globalMetrics.emoji_per_100w
          questions_rate := round2 globalMetrics.questions_rate
          imperative_rate := round2 globalMetrics.imperative_rate
          tt_ratioQ := round2 globalMetrics.tt_ratioQ }
      tone_labels := deriveToneLabels globalMetrics
      taboos_redlines := ["no promesse miracolose"]
      topics_distribution := buildTopicsDistribution clusters
      evidence := buildEvidence docs
      last_updated := lastUpdated }

structure ContentBlueprint where
  persona_handle : String
  persona_version : ℚ
  pillars : List String
  angle_options : List Angle
  voice_guardrails : Guardrails
  red_lines : List String
  sponsored_policy : SponsoredPolicy

/-- _build_content_blueprint: pillars from coverage weighted down for promo
or brand topics when sponsored content exists, plus angles, guardrails and
the sponsored policy. -/
def buildContentBlueprint (docs : List Doc) (clusters : List TopicCluster)
    (claims : List Claim) (persona : PersonaProfile) : ContentBlueprint :=
  let share := sponsoredWeight docs
  let weighted := clusters.map fun c =>
    let topic := match c.top_terms with | [] => "vario" | t :: _ => t
    (topic, c.coverage * (if 0 < share ∧ (topic = "promo" ∨ topic = "brand")
      then 1/2 else 1))
  let sorted := sortByLe (fun a b : String × ℚ => decide (b.2 ≤ a.2)) weighted
  { persona_handle := persona.influencer.handle
    persona_version := persona.last_updated
    pillars := (sorted.take 3).map Prod.fst
    angle_options := blueprintAngles clusters claims
    voice_guardrails := voiceGuardrails persona.voice_metrics
    red_lines := ["no consigli medici"]
    sponsored_policy := sponsoredPolicy docs }

/-- The per-document export of _annotate_document. -/
structure AnnotatedDoc where
  id : String
  url : String
  ts : ℚ
  platform : String
  lang : Option String
  mixed_lang : Bool
  slang : Bool
  kind : String
  sponsored_label : Option String
  sponsored_score : Option ℚ
  text : String
  cluster_id : Option ℕ

def annotateDocument (d : Doc) : AnnotatedDoc :=
  { id := d.id, url := d.url, ts := d.ts, platform := d.platform, lang := d.lang,
    mixed_lang := d.mixed_lang, slang := d.slang, kind := d.kind,
    sponsored_label := d.sponsored_label, sponsored_score := d.sponsored_score,
    text := d.text, cluster_id := d.cluster_id }

/-- A well-formed raw record.  The _ingest validation (missing required
keys, non-ISO timestamp types) concerns malformed dict payloads and is not
modelled: a Payload already carries the required fields, with kind and meta
optional as in the source. -/
structure Payload where
  id : String
  url : String
  ts : ℚ
  platform : String
  text : String
  kind : Option String
  meta : List (String × MetaVal)

/-- _ingest on a well-formed payload: platform lowercased, kind defaulted to
"unknown", enrichment fields unset. -/
def ingest (p : Payload) : Doc :=
  { id := p.id, url := p.url, ts := p.ts, platform := strLower p.platform,
    text := p.text,
    kind := match p.kind with | some k => k | none => "unknown",
    meta := p.meta, lang := none, lang_conf := none, mixed_lang := false,
    slang := false, text_norm := none, sponsored_label := none,
    sponsored_score := none, cluster_id := none }

structure PipelineResult where
  persona_profile : PersonaProfile
  content_blueprint : ContentBlueprint
  annotated_documents : List AnnotatedDoc

/-- CopycatAIPipeline.run: ingest, enrich each document (lang_fix then
sponsored_detector), cluster, extract claims, compute stylometry and
evolution, build the persona profile, blueprint and annotated export.
The result is none exactly when _build_persona_profile raises. -/
noncomputable def runPipeline (targetLanguage : String) (handle : String)
    (platforms languages : Option (List String)) (payloads : List Payload) :
    Option PipelineResult :=
  let ingested := payloads.map ingest
  let enriched := ingested.map fun d => sponsoredDetector (langFix d targetLanguage)
  let cl := clusterDocuments enriched
  let claims := (buildClaims cl.1 cl.2).1
  let sty := computeStylometry cl.2
  let evolution := evolutionTracker cl.2
  (buildPersonaProfile targetLanguage cl.2 cl.1 claims sty.1 evolution handle
      platforms languages).map
    fun persona =>
      { persona_profile := persona
        content_blueprint := buildContentBlueprint cl.2 cl.1 claims persona
        annotated_documents := cl.2.map annotateDocument }

/-! ## Claim C1: the empty batch -/

/-- C1: running the pipeline on zero documents does not return a well-defined
empty-state profile and does not reject the call with a documented error — it
reaches the unguarded reduction max(doc.ts for doc in documents) over an
empty sequence inside _build_persona_profile, which raises ValueError
(modelled: the run is none for every parameter choice). -/
theorem c1_empty_batch_crashes (targetLanguage handle : String)
    (platforms languages : Option (List String)) :
    runPipeline targetLanguage handle platforms languages [] = none := by
  simp [runPipeline, buildPersonaProfile, clusterDocuments]
